import Mathlib

/-!
A verification development for the secure-storage repository.

The Go sources are shallowly embedded as executable Lean definitions:

* Go byte slices and Go strings (which are byte sequences) become `List Nat`
  respectively Lean `String` (filenames in this code are ASCII-checked, so
  rune-level and byte-level views agree on everything the theorems touch);
* the local filesystem becomes an association list from path to file record
  (contents and unix permission bits); `os.WriteFile` keeps the permissions
  of an existing file, as documented in the Go standard library;
* each storage operation returns its result together with the trace of
  filesystem operations it performed, and `applyOps` replays a trace onto a
  filesystem; this makes read-only and no-access-before-validation
  properties expressible;
* `crypto/aes` + `cipher.NewGCM` become an abstract `GCMCore` (key-indexed
  seal and open functions); the standard GCM nonce size 12 is built into
  `newGCM`.  AEAD correctness (open inverts seal) is a named hypothesis,
  instantiated for witnesses by the trivial `idGCM`;
* `crypto/sha256` becomes an explicit function parameter `hash`; the claims
  about checksums hold for every choice of it.
-/

/-- A stored file: its content bytes and its unix permission bits. -/
structure File where
  contents : List Nat
  perm : Nat
deriving DecidableEq, Repr

/-- The filesystem: an association list from path to file. -/
abbrev FS : Type := List (String × File)

/-- Read a file from the filesystem, `none` if absent (os.ReadFile / os.IsNotExist). -/
def fsRead : FS → String → Option File
  | [], _ => none
  | (q, file) :: rest, p => if q = p then some file else fsRead rest p

/-- Remove every entry of a path from the filesystem. -/
def fsErase : FS → String → FS
  | [], _ => []
  | (q, file) :: rest, p =>
    if q = p then fsErase rest p else (q, file) :: fsErase rest p

/-- The permission bits a write leaves on a path: os.WriteFile keeps the
permissions of an existing file and applies the given bits only on creation,
as the Go standard library documents. -/
def fsWritePerm (fs : FS) (p : String) (perm : Nat) : Nat :=
  match fsRead fs p with
  | some f => f.perm
  | none => perm

/-- Write a file (os.WriteFile): truncate or create with the resulting
contents and permission bits. -/
def fsWrite (fs : FS) (p : String) (c : List Nat) (perm : Nat) : FS :=
  (p, ⟨c, fsWritePerm fs p perm⟩) :: fsErase fs p

/-- One filesystem operation performed by a storage routine. -/
inductive FSOp where
  | read (path : String)
  | write (path : String) (contents : List Nat) (perm : Nat)
  | stat (path : String)
deriving DecidableEq, Repr

/-- Whether an operation mutates the filesystem. -/
def FSOp.isWrite : FSOp → Bool
  | .write _ _ _ => true
  | _ => false

/-- Replay a trace of filesystem operations onto a filesystem. -/
def applyOps (fs : FS) : List FSOp → FS
  | [] => fs
  | FSOp.write p c perm :: rest => applyOps (fsWrite fs p c perm) rest
  | FSOp.read _ :: rest => applyOps fs rest
  | FSOp.stat _ :: rest => applyOps fs rest

/-- An AEAD context as used through Go's cipher.AEAD interface:
a nonce size, Seal (nonce and plaintext to ciphertext-with-tag) and
Open (nonce and ciphertext-with-tag to plaintext, or failure). -/
structure AEAD where
  nonceSize : Nat
  Seal : List Nat → List Nat → List Nat
  Open : List Nat → List Nat → Option (List Nat)

/-- The key-indexed seal and open functions of AES-GCM
(crypto/aes composed with cipher.NewGCM), kept abstract. -/
structure GCMCore where
  sealFn : List Nat → List Nat → List Nat → List Nat
  openFn : List Nat → List Nat → List Nat → Option (List Nat)

/-- AEAD functional correctness: opening a sealed message with the same key
and nonce recovers the plaintext. -/
def GCMCore.Correct (g : GCMCore) : Prop :=
  ∀ key nonce pt, g.openFn key nonce (g.sealFn key nonce pt) = some pt

/-- cipher.NewGCM over an AES block: the standard GCM nonce size is 12 bytes. -/
def newGCM (g : GCMCore) (key : List Nat) : AEAD :=
  ⟨12, g.sealFn key, g.openFn key⟩

/-- A trivial reversible GCMCore used to instantiate witnesses. -/
def idGCM : GCMCore :=
  ⟨fun _ _ pt => pt, fun _ _ ct => some ct⟩

/-- encoding/hex: one hex digit, lowercase. -/
def hexDigit (n : Nat) : Char :=
  if n < 10 then Char.ofNat (48 + n) else Char.ofNat (97 + (n - 10))

/-- encoding/hex EncodeToString: two lowercase hex characters per byte. -/
def hexEncodeToString (bs : List Nat) : String :=
  ⟨bs.foldr (fun b acc => hexDigit (b / 16 % 16) :: hexDigit (b % 16) :: acc) []⟩

/-- Go []byte(s): the bytes of a string (ASCII in every use here). -/
def strBytes (s : String) : List Nat :=
  s.data.map Char.toNat

/-- strings.Contains on character lists. -/
def strContains (pat : List Char) : List Char → Bool
  | [] => pat.isEmpty
  | c :: rest => pat.isPrefixOf (c :: rest) || strContains pat rest

/-- The character class of the validator's regular expression
`[a-zA-Z0-9_\-\.]` as written in the source. -/
def goodChar (c : Char) : Bool :=
  (97 ≤ c.toNat && c.toNat ≤ 122) || (65 ≤ c.toNat && c.toNat ≤ 90) ||
    (48 ≤ c.toNat && c.toNat ≤ 57) || c = '_' || c = '-' || c = '.'

/-- regexp MatchString for the anchored pattern
`[a-zA-Z0-9_\-\.]+` from start to end: nonempty and every character in the class. -/
def matchValidPattern (f : String) : Bool :=
  !f.data.isEmpty && f.data.all goodChar

/-- The storage service: key bytes, data directory, AEAD context. -/
structure Service where
  key : List Nat
  dataDir : String
  gcm : AEAD

/-- aes.NewCipher accepts exactly the AES key sizes 16, 24 and 32 bytes. -/
def aesKeySizeOk (n : Nat) : Bool :=
  n = 16 || n = 24 || n = 32

/-- storage.NewService: build the AES cipher (fails on a non-AES key size),
wrap it in GCM, and return the service. -/
def NewService (g : GCMCore) (key : List Nat) (dataDir : String) :
    Except String Service :=
  if aesKeySizeOk key.length then
    Except.ok ⟨key, dataDir, newGCM g key⟩
  else
    Except.error "failed to create cipher: crypto/aes: invalid key size"

/-- filepath.Join of the data directory and a file name.  For the validated
names and plain directory paths used here, Join is concatenation with a
separator (path cleaning never fires on them). -/
def joinPath (dir name : String) : String :=
  dir ++ "/" ++ name

/-- storage.validateFilename: reject empty names, the substring "..",
path separators, characters outside the regular expression class,
and the literal names "." and "..". -/
def validateFilename (filename : String) : Option String :=
  if filename = "" then
    some "filename cannot be empty"
  else if strContains ['.', '.'] filename.data then
    some "filename contains path traversal attempt"
  else if filename.data.any (fun c => c = '/' || c = '\\') then
    some "filename cannot contain path separators"
  else if !matchValidPattern filename then
    some "filename contains invalid characters"
  else if filename = "." || filename = ".." then
    some "invalid filename"
  else
    none

/-- storage.SaveFile.  `content` is the outcome of io.ReadAll on the request
stream (tee-read into the hash accumulator, so `hash` sees exactly the bytes
that are encrypted); `nonce` is the byte string drawn from the CSPRNG.
Returns the Go result and the trace of filesystem operations performed. -/
def SaveFile (hash : List Nat → List Nat) (s : Service)
    (filename : String) (content : Except String (List Nat))
    (nonce : List Nat) : Except String Unit × List FSOp :=
  match validateFilename filename with
  | some e => (Except.error ("invalid filename: " ++ e), [])
  | none =>
    match content with
    | Except.error e => (Except.error ("failed to read file content: " ++ e), [])
    | Except.ok data =>
      let encrypted := nonce ++ s.gcm.Seal nonce data
      let filePath := joinPath s.dataDir (filename ++ ".enc")
      let checksum := hexEncodeToString (hash data)
      let checksumPath := joinPath s.dataDir (filename ++ ".sha256")
      (Except.ok (),
        [FSOp.write filePath encrypted 0o600,
         FSOp.write checksumPath (strBytes checksum) 0o644])

/-- storage.LoadFile: validate, read the artifact, check the nonce length,
split nonce from ciphertext, decrypt, read the checksum sidecar, recompute
the digest of the plaintext and compare byte-for-byte.  Returns the Go
result and the trace of filesystem operations performed. -/
def LoadFile (hash : List Nat → List Nat) (s : Service) (fs : FS)
    (filename : String) : Except String (List Nat) × List FSOp :=
  match validateFilename filename with
  | some e => (Except.error ("invalid filename: " ++ e), [])
  | none =>
    let filePath := joinPath s.dataDir (filename ++ ".enc")
    match fsRead fs filePath with
    | none => (Except.error "file not found", [FSOp.read filePath])
    | some encFile =>
      let encrypted := encFile.contents
      if encrypted.length < s.gcm.nonceSize then
        (Except.error "encrypted file is too small", [FSOp.read filePath])
      else
        let nonce := encrypted.take s.gcm.nonceSize
        let ciphertext := encrypted.drop s.gcm.nonceSize
        match s.gcm.Open nonce ciphertext with
        | none => (Except.error "failed to decrypt file", [FSOp.read filePath])
        | some plaintext =>
          let checksumPath := joinPath s.dataDir (filename ++ ".sha256")
          match fsRead fs checksumPath with
          | none =>
            (Except.error "integrity check failed: checksum file missing",
             [FSOp.read filePath, FSOp.read checksumPath])
          | some chkFile =>
            let calculated := strBytes (hexEncodeToString (hash plaintext))
            if calculated ≠ chkFile.contents then
              (Except.error "integrity check failed: hash mismatch",
               [FSOp.read filePath, FSOp.read checksumPath])
            else
              (Except.ok plaintext,
               [FSOp.read filePath, FSOp.read checksumPath])

/-- storage.FileExists: false on an invalid name, otherwise whether os.Stat
finds the artifact.  Returns the result and the trace. -/
def FileExists (s : Service) (fs : FS) (filename : String) :
    Bool × List FSOp :=
  match validateFilename filename with
  | some _ => (false, [])
  | none =>
    let filePath := joinPath s.dataDir (filename ++ ".enc")
    ((fsRead fs filePath).isSome, [FSOp.stat filePath])

/-- cmd/server startup: require a nonempty STORAGE_KEY of exactly 32 bytes,
create the data directory (`mkdirOk` is whether os.MkdirAll succeeded), then
construct the storage service. -/
def startupInit (g : GCMCore) (key : List Nat) (mkdirOk : Bool) :
    Except String Service :=
  if key.isEmpty then
    Except.error "STORAGE_KEY environment variable is required"
  else if key.length ≠ 32 then
    Except.error "STORAGE_KEY must be exactly 32 characters for AES-256"
  else if !mkdirOk then
    Except.error "Failed to create data directory"
  else
    NewService g key "./data"

/-- Modelled from the spec: the token bucket of the external dependency
golang.org/x/time/rate (its source is not part of this repository).  State of
one client bucket: current token count and the time of the last update, with
time measured in seconds as a rational number. -/
structure Bucket where
  tokens : ℚ
  last : ℚ
deriving DecidableEq

/-- Modelled from the spec: one Allow step of a token bucket with capacity
`cap` and refill rate `rt` tokens per second.  Refill `elapsed * rt` capped at
`cap`; if at least one token is available, consume one and admit, otherwise
deny without consuming (the library leaves the limiter untouched on denial). -/
def bucketAllow (cap rt : ℚ) (b : Bucket) (now : ℚ) : Bool × Bucket :=
  let refilled := min cap (b.tokens + (now - b.last) * rt)
  if 1 ≤ refilled then (true, ⟨refilled - 1, now⟩) else (false, b)

/-- The rate limiter table: client key to bucket (RateLimiter.visitors). -/
abbrev RL : Type := List (String × Bucket)

/-- Look up a client's bucket. -/
def rlFind : RL → String → Option Bucket
  | [], _ => none
  | (k, b) :: rest, ip => if k = ip then some b else rlFind rest ip

/-- Store a client's bucket, replacing any previous entry. -/
def rlSet : RL → String → Bucket → RL
  | [], ip, b => [(ip, b)]
  | (k, b0) :: rest, ip, b =>
    if k = ip then (ip, b) :: rest else (k, b0) :: rlSet rest ip b

/-- RateLimiter.getLimiter: return the client's bucket, lazily creating one
at full capacity 3 (rate.NewLimiter(1, 3) behaves as a full bucket on first
use) for an unseen key. -/
def getLimiter (rl : RL) (ip : String) (now : ℚ) : Bucket × RL :=
  match rlFind rl ip with
  | some b => (b, rl)
  | none => (⟨3, now⟩, rlSet rl ip ⟨3, now⟩)

/-- The admission decision taken by the Limit middleware for one request:
fetch the client's bucket and run one Allow step with capacity 3 and refill
rate 1 token per second. -/
def rlAllow (rl : RL) (ip : String) (now : ℚ) : Bool × RL :=
  let p := getLimiter rl ip now
  let q := bucketAllow 3 1 p.1 now
  (q.1, rlSet p.2 ip q.2)
/-- The character class of the spec's reject rule, as the spec words it:
characters inside [A-Za-z0-9_.-]. -/
def specClassChar (c : Char) : Prop :=
  ('A' ≤ c ∧ c ≤ 'Z') ∨ ('a' ≤ c ∧ c ≤ 'z') ∨ ('0' ≤ c ∧ c ≤ '9') ∨
    c = '_' ∨ c = '.' ∨ c = '-'

/-- The validator reject set as the spec words it: the empty string, any
occurrence of the two-character sequence "..", any slash or backslash, any
character outside the class, and the literal names "." and "..". -/
def specRejects (f : String) : Prop :=
  f = "" ∨ strContains ['.', '.'] f.data = true ∨
    (∃ c ∈ f.data, c = '/' ∨ c = '\\') ∨
    (∃ c ∈ f.data, ¬ specClassChar c) ∨ f = "." ∨ f = ".."

instance (c : Char) : Decidable (specClassChar c) := by
  unfold specClassChar
  infer_instance

instance (f : String) : Decidable (specRejects f) := by
  unfold specRejects
  infer_instance

/-- Owner-only (private) unix permission bits: no group or other access. -/
def ownerOnly (p : Nat) : Bool :=
  p % 64 = 0

theorem idGCM_correct : GCMCore.Correct idGCM := fun _ _ _ => rfl

theorem goodChar_iff (c : Char) : goodChar c = true ↔ specClassChar c := by
  simp [goodChar, specClassChar, Char.le_def, UInt32.le_def, Char.toNat]
  tauto

theorem fsRead_fsErase_ne (fs : FS) (p q : String) (h : q ≠ p) :
    fsRead (fsErase fs p) q = fsRead fs q := by
  induction fs with
  | nil => rfl
  | cons e rest ih =>
    rcases e with ⟨r, file⟩
    by_cases he : r = p
    · subst he
      simp [fsErase, fsRead, Ne.symm h, ih]
    · by_cases hq : r = q
      · subst hq
        simp [fsErase, fsRead, he]
      · simp [fsErase, fsRead, he, hq, ih]

theorem fsRead_fsWrite_ne (fs : FS) (p q : String) (c : List Nat) (perm : Nat)
    (h : q ≠ p) : fsRead (fsWrite fs p c perm) q = fsRead fs q := by
  simp [fsWrite, fsRead, Ne.symm h, fsRead_fsErase_ne fs p q h]

theorem fsRead_fsWrite_self (fs : FS) (p : String) (c : List Nat) (perm : Nat) :
    fsRead (fsWrite fs p c perm) p = some ⟨c, fsWritePerm fs p perm⟩ := by
  simp [fsWrite, fsRead]

theorem enc_ne_sha (dir f : String) :
    joinPath dir (f ++ ".enc") ≠ joinPath dir (f ++ ".sha256") := by
  intro h
  have h4 : (".enc" : String).length = 4 := rfl
  have h7 : (".sha256" : String).length = 7 := rfl
  have hl := congrArg String.length h
  simp [joinPath, String.length_append, h4, h7] at hl

/-- C8: with capacity 3 and refill rate 1 token per second, four back-to-back
Allow calls for a previously unseen client key are admitted, admitted,
admitted, denied; the denial leaves the limiter table unchanged (no token
consumed); and one second later a further call for that key is admitted. -/
theorem rateLimiter_burst3_refill1 (ip : String) (t : ℚ) :
    (rlAllow [] ip t).1 = true ∧
    (rlAllow (rlAllow [] ip t).2 ip t).1 = true ∧
    (rlAllow (rlAllow (rlAllow [] ip t).2 ip t).2 ip t).1 = true ∧
    (rlAllow (rlAllow (rlAllow (rlAllow [] ip t).2 ip t).2 ip t).2 ip t).1
      = false ∧
    (rlAllow (rlAllow (rlAllow (rlAllow [] ip t).2 ip t).2 ip t).2 ip t).2
      = (rlAllow (rlAllow (rlAllow [] ip t).2 ip t).2 ip t).2 ∧
    (rlAllow (rlAllow (rlAllow (rlAllow (rlAllow [] ip t).2 ip t).2 ip t).2
        ip t).2 ip (t + 1)).1 = true := by
  have h1 : rlAllow [] ip t = (true, [(ip, ⟨2, t⟩)]) := by
    norm_num [rlAllow, getLimiter, rlFind, rlSet, bucketAllow]
  have h2 : rlAllow [(ip, (⟨2, t⟩ : Bucket))] ip t = (true, [(ip, ⟨1, t⟩)]) := by
    norm_num [rlAllow, getLimiter, rlFind, rlSet, bucketAllow]
  have h3 : rlAllow [(ip, (⟨1, t⟩ : Bucket))] ip t = (true, [(ip, ⟨0, t⟩)]) := by
    norm_num [rlAllow, getLimiter, rlFind, rlSet, bucketAllow]
  have h4 : rlAllow [(ip, (⟨0, t⟩ : Bucket))] ip t = (false, [(ip, ⟨0, t⟩)]) := by
    norm_num [rlAllow, getLimiter, rlFind, rlSet, bucketAllow]
  have h5 : rlAllow [(ip, (⟨0, t⟩ : Bucket))] ip (t + 1)
      = (true, [(ip, ⟨0, t + 1⟩)]) := by
    norm_num [rlAllow, getLimiter, rlFind, rlSet, bucketAllow,
      add_sub_cancel_left]
  simp [h1, h2, h3, h4, h5]

/-- C2: startup construction of the storage engine succeeds exactly when the
key is 32 bytes long and the data directory could be created; in particular
every key of any other length is rejected. -/
theorem startup_key_and_dir (g : GCMCore) (key : List Nat) (mkdirOk : Bool) :
    (∃ s, startupInit g key mkdirOk = Except.ok s)
      ↔ (key.length = 32 ∧ mkdirOk = true) := by
  constructor
  · rintro ⟨s, hs⟩
    by_cases h0 : key.isEmpty
    · simp [startupInit, h0] at hs
    · by_cases h1 : key.length = 32
      · by_cases h2 : mkdirOk
        · exact ⟨h1, by simp [h2]⟩
        · simp [startupInit, h0, h1, h2] at hs
      · simp [startupInit, h0, h1] at hs
  · rintro ⟨h1, h2⟩
    have h0 : key.isEmpty = false := by
      cases key with
      | nil => simp at h1
      | cons a l => rfl
    refine ⟨⟨key, "./data", newGCM g key⟩, ?_⟩
    simp [startupInit, h0, h1, h2, NewService, aesKeySizeOk]

/-- C1: for every filename accepted by the validator and every byte sequence
(the empty one included), saving and then loading with no intervening writes
succeeds and returns exactly the saved bytes, for any correct AEAD core,
any hash function, any key and any prior store state. -/
theorem save_then_load_roundtrip (g : GCMCore) (hash : List Nat → List Nat)
    (key : List Nat) (dataDir : String) (fs : FS) (f : String)
    (data nonce : List Nat) (hg : GCMCore.Correct g)
    (hv : validateFilename f = none) (hn : nonce.length = 12) :
    (SaveFile hash ⟨key, dataDir, newGCM g key⟩ f (Except.ok data) nonce).1
      = Except.ok () ∧
    (LoadFile hash ⟨key, dataDir, newGCM g key⟩
      (applyOps fs
        (SaveFile hash ⟨key, dataDir, newGCM g key⟩ f (Except.ok data) nonce).2)
      f).1 = Except.ok data := by
  have hsave : SaveFile hash ⟨key, dataDir, newGCM g key⟩ f (Except.ok data) nonce
      = (Except.ok (),
         [FSOp.write (joinPath dataDir (f ++ ".enc"))
            (nonce ++ g.sealFn key nonce data) 0o600,
          FSOp.write (joinPath dataDir (f ++ ".sha256"))
            (strBytes (hexEncodeToString (hash data))) 0o644]) := by
    simp [SaveFile, hv, newGCM]
  refine ⟨by rw [hsave], ?_⟩
  rw [hsave]
  simp only [applyOps]
  have hne := enc_ne_sha dataDir f
  have hrEnc : fsRead
      (fsWrite (fsWrite fs (joinPath dataDir (f ++ ".enc"))
          (nonce ++ g.sealFn key nonce data) 0o600)
        (joinPath dataDir (f ++ ".sha256"))
        (strBytes (hexEncodeToString (hash data))) 0o644)
      (joinPath dataDir (f ++ ".enc"))
      = some ⟨nonce ++ g.sealFn key nonce data,
          fsWritePerm fs (joinPath dataDir (f ++ ".enc")) 0o600⟩ := by
    rw [fsRead_fsWrite_ne _ _ _ _ _ hne, fsRead_fsWrite_self]
  have hrSha : fsRead
      (fsWrite (fsWrite fs (joinPath dataDir (f ++ ".enc"))
          (nonce ++ g.sealFn key nonce data) 0o600)
        (joinPath dataDir (f ++ ".sha256"))
        (strBytes (hexEncodeToString (hash data))) 0o644)
      (joinPath dataDir (f ++ ".sha256"))
      = some ⟨strBytes (hexEncodeToString (hash data)), _⟩ :=
    fsRead_fsWrite_self _ _ _ _
  have hlen : ¬ (nonce ++ g.sealFn key nonce data).length < 12 := by
    simp [List.length_append, hn]
  have htake : (nonce ++ g.sealFn key nonce data).take 12 = nonce := by
    rw [← hn]
    exact List.take_left nonce _
  have hdrop : (nonce ++ g.sealFn key nonce data).drop 12
      = g.sealFn key nonce data := by
    rw [← hn]
    exact List.drop_left nonce _
  simp only [LoadFile, hv, newGCM, hrEnc, hlen, htake, hdrop, hg key nonce data,
    hrSha, if_false, ite_not]
  simp

theorem save_then_load_roundtrip_witness :
    (SaveFile (fun _ => []) ⟨[], "data", newGCM idGCM []⟩ "a.txt"
      (Except.ok []) (List.replicate 12 0)).1 = Except.ok () ∧
    (LoadFile (fun _ => []) ⟨[], "data", newGCM idGCM []⟩
      (applyOps []
        (SaveFile (fun _ => []) ⟨[], "data", newGCM idGCM []⟩ "a.txt"
          (Except.ok []) (List.replicate 12 0)).2)
      "a.txt").1 = Except.ok [] :=
  save_then_load_roundtrip idGCM (fun _ => []) [] "data" [] "a.txt" []
    (List.replicate 12 0) idGCM_correct (by decide) (by decide)

/-- C3 counterexample: the claim that both persisted files get private,
owner-only permissions fails on a concrete successful save; the checksum
sidecar is written with permission 644, which grants group and other read
access. -/
theorem save_checksum_not_private :
    (SaveFile (fun _ => []) ⟨[], "data", newGCM idGCM []⟩ "a.txt"
      (Except.ok []) (List.replicate 12 0)).1 = Except.ok () ∧
    fsRead (applyOps []
        (SaveFile (fun _ => []) ⟨[], "data", newGCM idGCM []⟩ "a.txt"
          (Except.ok []) (List.replicate 12 0)).2)
      "data/a.txt.sha256"
      = some ⟨[], 0o644⟩ ∧
    ownerOnly 0o644 = false :=
  ⟨rfl, rfl, rfl⟩

/-- C3 amended: every successful save performs exactly two writes; the
ciphertext artifact is written with the private, owner-only permission 600,
while the checksum sidecar is written with the world-readable permission
644. -/
theorem save_write_permissions (hash : List Nat → List Nat) (s : Service)
    (f : String) (data nonce : List Nat) (hv : validateFilename f = none) :
    (SaveFile hash s f (Except.ok data) nonce).1 = Except.ok () ∧
    (∃ c1 c2, (SaveFile hash s f (Except.ok data) nonce).2
      = [FSOp.write (joinPath s.dataDir (f ++ ".enc")) c1 0o600,
         FSOp.write (joinPath s.dataDir (f ++ ".sha256")) c2 0o644]) ∧
    ownerOnly 0o600 = true ∧ ownerOnly 0o644 = false :=
  ⟨by simp [SaveFile, hv],
    ⟨nonce ++ s.gcm.Seal nonce data, strBytes (hexEncodeToString (hash data)),
      by simp [SaveFile, hv]⟩, by decide, by decide⟩

theorem save_write_permissions_witness :
    (SaveFile (fun _ => []) ⟨[], "data", newGCM idGCM []⟩ "b.txt"
      (Except.ok [7]) (List.replicate 12 1)).1 = Except.ok () ∧
    (∃ c1 c2, (SaveFile (fun _ => []) ⟨[], "data", newGCM idGCM []⟩ "b.txt"
      (Except.ok [7]) (List.replicate 12 1)).2
      = [FSOp.write (joinPath "data" ("b.txt" ++ ".enc")) c1 0o600,
         FSOp.write (joinPath "data" ("b.txt" ++ ".sha256")) c2 0o644]) ∧
    ownerOnly 0o600 = true ∧ ownerOnly 0o644 = false :=
  save_write_permissions (fun _ => []) ⟨[], "data", newGCM idGCM []⟩ "b.txt"
    [7] (List.replicate 12 1) (by decide)

/-- C4: the filename validator accepts exactly the strings outside the
spec's reject set, and both SaveFile and LoadFile apply it first: on a name
the validator rejects they fail with an empty trace of filesystem
operations, so no filesystem access happens. -/
theorem validator_exact_and_first (f : String) :
    (validateFilename f = none ↔ ¬ specRejects f) ∧
    (∀ (hash : List Nat → List Nat) (s : Service)
        (content : Except String (List Nat)) (nonce : List Nat),
      validateFilename f ≠ none →
      ∃ msg, SaveFile hash s f content nonce = (Except.error msg, [])) ∧
    (∀ (hash : List Nat → List Nat) (s : Service) (fs : FS),
      validateFilename f ≠ none →
      ∃ msg, LoadFile hash s fs f = (Except.error msg, [])) := by
  refine ⟨?_, ?_, ?_⟩
  · unfold validateFilename specRejects
    split_ifs with h1 h2 h3 h4 h5 <;>
      simp_all [matchValidPattern, List.all_eq_true, List.any_eq_true,
        goodChar_iff, String.ext_iff]
  · intro hash s content nonce hv
    cases hval : validateFilename f with
    | none => exact absurd hval hv
    | some e => exact ⟨"invalid filename: " ++ e, by simp [SaveFile, hval]⟩
  · intro hash s fs hv
    cases hval : validateFilename f with
    | none => exact absurd hval hv
    | some e => exact ⟨"invalid filename: " ++ e, by simp [LoadFile, hval]⟩

theorem validator_exact_and_first_witness :
    validateFilename "my-file_1.txt" = none ∧
    (∃ msg, SaveFile (fun _ => []) ⟨[], "data", newGCM idGCM []⟩
      "../etc/passwd" (Except.ok []) [] = (Except.error msg, [])) ∧
    (∃ msg, LoadFile (fun _ => []) ⟨[], "data", newGCM idGCM []⟩ []
      "../etc/passwd" = (Except.error msg, [])) :=
  ⟨(validator_exact_and_first "my-file_1.txt").1.mpr (by decide),
   (validator_exact_and_first "../etc/passwd").2.1 _ _ _ _ (by decide),
   (validator_exact_and_first "../etc/passwd").2.2 _ _ _ (by decide)⟩

/-- C5: for a valid filename whose artifact is present and decrypts, a
missing checksum sidecar makes the load fail closed with the integrity
error for a missing checksum, which is distinct from the not-found error,
and no plaintext is returned. -/
theorem loadFile_missing_checksum_fails (g : GCMCore)
    (hash : List Nat → List Nat) (key : List Nat) (dataDir : String)
    (fs : FS) (f : String) (encFile : File) (pt : List Nat)
    (hv : validateFilename f = none)
    (henc : fsRead fs (joinPath dataDir (f ++ ".enc")) = some encFile)
    (hlen : ¬ encFile.contents.length < 12)
    (hdec : g.openFn key (encFile.contents.take 12) (encFile.contents.drop 12)
      = some pt)
    (hsha : fsRead fs (joinPath dataDir (f ++ ".sha256")) = none) :
    (LoadFile hash ⟨key, dataDir, newGCM g key⟩ fs f).1
      = Except.error "integrity check failed: checksum file missing" ∧
    ("integrity check failed: checksum file missing" : String)
      ≠ "file not found" := by
  refine ⟨?_, by decide⟩
  simp [LoadFile, hv, henc, newGCM, hlen, hdec, hsha]

theorem loadFile_missing_checksum_fails_witness :
    (LoadFile (fun _ => []) ⟨[], "data", newGCM idGCM []⟩
      [("data/a.txt.enc", ⟨List.replicate 12 0, 0o600⟩)] "a.txt").1
      = Except.error "integrity check failed: checksum file missing" ∧
    ("integrity check failed: checksum file missing" : String)
      ≠ "file not found" :=
  loadFile_missing_checksum_fails idGCM (fun _ => []) [] "data"
    [("data/a.txt.enc", ⟨List.replicate 12 0, 0o600⟩)] "a.txt"
    ⟨List.replicate 12 0, 0o600⟩ [] (by decide) (by decide) (by decide)
    (by decide) (by decide)

/-- C6: for a valid filename whose artifact decrypts to some plaintext and
whose checksum sidecar is present, the load fails with the hash-mismatch
integrity error exactly when the recomputed hex digest of the plaintext
differs byte-for-byte from the stored sidecar contents, succeeds exactly
when they are equal, and the integrity error is distinct from the
decryption error. -/
theorem loadFile_checksum_exact_compare (g : GCMCore)
    (hash : List Nat → List Nat) (key : List Nat) (dataDir : String)
    (fs : FS) (f : String) (encFile chkFile : File) (pt : List Nat)
    (hv : validateFilename f = none)
    (henc : fsRead fs (joinPath dataDir (f ++ ".enc")) = some encFile)
    (hlen : ¬ encFile.contents.length < 12)
    (hdec : g.openFn key (encFile.contents.take 12) (encFile.contents.drop 12)
      = some pt)
    (hsha : fsRead fs (joinPath dataDir (f ++ ".sha256")) = some chkFile) :
    ((LoadFile hash ⟨key, dataDir, newGCM g key⟩ fs f).1
        = Except.error "integrity check failed: hash mismatch"
      ↔ strBytes (hexEncodeToString (hash pt)) ≠ chkFile.contents) ∧
    ((LoadFile hash ⟨key, dataDir, newGCM g key⟩ fs f).1 = Except.ok pt
      ↔ strBytes (hexEncodeToString (hash pt)) = chkFile.contents) ∧
    ("integrity check failed: hash mismatch" : String)
      ≠ "failed to decrypt file" := by
  refine ⟨?_, ?_, by decide⟩ <;>
  · by_cases hc : strBytes (hexEncodeToString (hash pt)) = chkFile.contents
    · simp [LoadFile, hv, henc, newGCM, hlen, hdec, hsha, hc]
    · simp [LoadFile, hv, henc, newGCM, hlen, hdec, hsha, hc]

theorem loadFile_checksum_exact_compare_witness :
    (LoadFile (fun _ => []) ⟨[], "data", newGCM idGCM []⟩
      [("data/a.txt.enc", ⟨List.replicate 12 0, 0o600⟩),
       ("data/a.txt.sha256", ⟨[65], 0o644⟩)] "a.txt").1
      = Except.error "integrity check failed: hash mismatch" :=
  ((loadFile_checksum_exact_compare idGCM (fun _ => []) [] "data"
      [("data/a.txt.enc", ⟨List.replicate 12 0, 0o600⟩),
       ("data/a.txt.sha256", ⟨[65], 0o644⟩)] "a.txt"
      ⟨List.replicate 12 0, 0o600⟩ ⟨[65], 0o644⟩ []
      (by decide) (by decide) (by decide) (by decide) (by decide)).1).mpr
    (by decide)

/-- C7: for a valid filename, a missing artifact fails with the not-found
error; an artifact shorter than the 12-byte nonce fails as malformed for
every possible decryption function, so without attempting decryption;
otherwise the first 12 bytes and the remainder are fed to decryption, whose
failure yields the decryption error and whose success leads only to the
plaintext or to one of the two integrity failures. -/
theorem loadFile_artifact_errors (g : GCMCore) (hash : List Nat → List Nat)
    (key : List Nat) (dataDir : String) (fs : FS) (f : String)
    (hv : validateFilename f = none) :
    (fsRead fs (joinPath dataDir (f ++ ".enc")) = none →
      (LoadFile hash ⟨key, dataDir, newGCM g key⟩ fs f).1
        = Except.error "file not found") ∧
    (∀ encFile, fsRead fs (joinPath dataDir (f ++ ".enc")) = some encFile →
      encFile.contents.length < 12 →
      (LoadFile hash ⟨key, dataDir, newGCM g key⟩ fs f).1
        = Except.error "encrypted file is too small") ∧
    (∀ encFile, fsRead fs (joinPath dataDir (f ++ ".enc")) = some encFile →
      ¬ encFile.contents.length < 12 →
      g.openFn key (encFile.contents.take 12) (encFile.contents.drop 12) = none →
      (LoadFile hash ⟨key, dataDir, newGCM g key⟩ fs f).1
        = Except.error "failed to decrypt file") ∧
    (∀ encFile pt, fsRead fs (joinPath dataDir (f ++ ".enc")) = some encFile →
      ¬ encFile.contents.length < 12 →
      g.openFn key (encFile.contents.take 12) (encFile.contents.drop 12)
        = some pt →
      (LoadFile hash ⟨key, dataDir, newGCM g key⟩ fs f).1 = Except.ok pt ∨
      (LoadFile hash ⟨key, dataDir, newGCM g key⟩ fs f).1
        = Except.error "integrity check failed: checksum file missing" ∨
      (LoadFile hash ⟨key, dataDir, newGCM g key⟩ fs f).1
        = Except.error "integrity check failed: hash mismatch") := by
  refine ⟨?_, ?_, ?_, ?_⟩
  · intro h
    simp [LoadFile, hv, h, newGCM]
  · intro encFile h hlen
    simp [LoadFile, hv, h, newGCM, hlen]
  · intro encFile h hlen hdec
    simp [LoadFile, hv, h, newGCM, hlen, hdec]
  · intro encFile pt h hlen hdec
    simp only [LoadFile, hv, h, newGCM, hlen, hdec]
    cases fsRead fs (joinPath dataDir (f ++ ".sha256")) with
    | none => simp
    | some chkFile =>
      by_cases hc : strBytes (hexEncodeToString (hash pt)) = chkFile.contents
      · simp [hc, hlen]
      · simp [hc, hlen]

theorem loadFile_artifact_errors_witness :
    (LoadFile (fun _ => []) ⟨[], "data", newGCM idGCM []⟩ [] "a.txt").1
      = Except.error "file not found" ∧
    (LoadFile (fun _ => []) ⟨[], "data", newGCM idGCM []⟩
      [("data/b.bin.enc", ⟨[0], 0o600⟩)] "b.bin").1
      = Except.error "encrypted file is too small" :=
  ⟨(loadFile_artifact_errors idGCM (fun _ => []) [] "data" [] "a.txt"
      (by decide)).1 (by decide),
   (loadFile_artifact_errors idGCM (fun _ => []) [] "data"
      [("data/b.bin.enc", ⟨[0], 0o600⟩)] "b.bin" (by decide)).2.1
     ⟨[0], 0o600⟩ (by decide) (by decide)⟩

/-- C9: when validation fails or consuming the input stream fails, SaveFile
returns an error, performs no filesystem operation, and the store is exactly
as it was before the call. -/
theorem saveFile_aborts_cleanly (hash : List Nat → List Nat) (s : Service)
    (fs : FS) (f : String) (content : Except String (List Nat))
    (nonce : List Nat)
    (h : validateFilename f ≠ none ∨ ∃ e, content = Except.error e) :
    (∃ msg, (SaveFile hash s f content nonce).1 = Except.error msg) ∧
    (SaveFile hash s f content nonce).2 = [] ∧
    applyOps fs (SaveFile hash s f content nonce).2 = fs := by
  cases hval : validateFilename f with
  | some e =>
    refine ⟨⟨"invalid filename: " ++ e, ?_⟩, ?_, ?_⟩ <;>
      simp [SaveFile, hval, applyOps]
  | none =>
    rcases h with h | ⟨e, he⟩
    · exact absurd hval h
    · subst he
      refine ⟨⟨"failed to read file content: " ++ e, ?_⟩, ?_, ?_⟩ <;>
        simp [SaveFile, hval, applyOps]

theorem saveFile_aborts_cleanly_witness :
    (∃ msg, (SaveFile (fun _ => []) ⟨[], "data", newGCM idGCM []⟩ "a.txt"
      (Except.error "boom") []).1 = Except.error msg) ∧
    (SaveFile (fun _ => []) ⟨[], "data", newGCM idGCM []⟩ "a.txt"
      (Except.error "boom") []).2 = [] ∧
    applyOps [("x", ⟨[1], 0o600⟩)]
      (SaveFile (fun _ => []) ⟨[], "data", newGCM idGCM []⟩ "a.txt"
        (Except.error "boom") []).2 = [("x", ⟨[1], 0o600⟩)] :=
  saveFile_aborts_cleanly (fun _ => []) ⟨[], "data", newGCM idGCM []⟩
    [("x", ⟨[1], 0o600⟩)] "a.txt" (Except.error "boom") []
    (Or.inr ⟨"boom", rfl⟩)

/-- C10: LoadFile and FileExists are read-only for every filename and every
store state: their traces contain no write operation and replaying them
leaves every stored byte unchanged. -/
theorem load_and_exists_readonly (hash : List Nat → List Nat) (s : Service)
    (fs : FS) (f : String) :
    ((LoadFile hash s fs f).2.all fun op => !op.isWrite) = true ∧
    applyOps fs (LoadFile hash s fs f).2 = fs ∧
    ((FileExists s fs f).2.all fun op => !op.isWrite) = true ∧
    applyOps fs (FileExists s fs f).2 = fs := by
  have hE : ((FileExists s fs f).2.all fun op => !op.isWrite) = true ∧
      applyOps fs (FileExists s fs f).2 = fs := by
    unfold FileExists
    cases validateFilename f with
    | some e => simp [applyOps]
    | none => simp [applyOps, FSOp.isWrite]
  have hL : ((LoadFile hash s fs f).2.all fun op => !op.isWrite) = true ∧
      applyOps fs (LoadFile hash s fs f).2 = fs := by
    simp only [LoadFile]
    repeat' split
    all_goals simp [applyOps, FSOp.isWrite]
  exact ⟨hL.1, hL.2, hE.1, hE.2⟩
